import Mathlib

/-!
Verification of the traffic-aware dispatch core of the load balancer in
`cmd/lb/balancer.go`.  The Go program keeps a map
`traffic : map[string][]sizeTimestamp` from backend identifiers to ordered
sample queues, selects the backend with the least summed load, prunes
samples older than five seconds once a second, probes backend health, and
forwards requests while recording response-body sizes.

The shallow embedding below models the ledger as an association list whose
order stands for the (unspecified) map traversal order, time instants as
integers (seconds), and the outcome of an outbound HTTP call as an
`Except` value.
-/

namespace Balancer

/-- Mirrors Go `type sizeTimestamp struct { size int; timestamp time.Time }`:
one recorded traffic sample. -/
structure sizeTimestamp where
  size : Nat
  timestamp : Int
  deriving DecidableEq, Repr

/-- The traffic ledger: the Go map `traffic`, with list order standing for
the map's traversal order. -/
abbrev Ledger := List (String × List sizeTimestamp)

/-- Summed size of a sample queue, as computed by the Go loops
`for _, st := range queue { total += st.size }`. -/
def sumQueue (q : List sizeTimestamp) : Nat :=
  (q.map fun st => st.size).sum

/-- Go `int(^uint(0) >> 1)` on a 64-bit platform: the initial value of
`minTraffic` in the dispatcher. -/
def maxInt : Nat := 2 ^ 63 - 1

/-- The dispatcher's selection loop (balancer.go lines 172-186): fold over
the traffic map carrying `(minTrafficServer, minTraffic)`, replacing the
accumulator only on a strictly smaller summed load. -/
def selectAux : String → Nat → Ledger → String × Nat
  | best, minT, [] => (best, minT)
  | best, minT, (s, q) :: rest =>
    if sumQueue q < minT then selectAux s (sumQueue q) rest
    else selectAux best minT rest

/-- Selection as run by the dispatcher: accumulator starts at
`("", maxInt)`. -/
def selectServer (l : Ledger) : String × Nat :=
  selectAux "" maxInt l

/-- Specification-side description of the selection result: the first
entry in traversal order whose summed load is minimal (ties keep the
earlier entry), together with that load; `none` on an empty ledger. -/
def firstMin : Ledger → Option (String × Nat)
  | [] => none
  | (s, q) :: rest =>
    match firstMin rest with
    | none => some (s, sumQueue q)
    | some (s2, m2) =>
      if sumQueue q ≤ m2 then some (s, sumQueue q) else some (s2, m2)

/-- Go map read `traffic[dst]`: the queue of the first entry with the
given key, or the zero value (empty queue) when absent. -/
def lookupQueue (l : Ledger) (s : String) : List sizeTimestamp :=
  match l with
  | [] => []
  | (k, q) :: rest => if k = s then q else lookupQueue rest s

/-- Go map write `traffic[k] = v`: replace the first entry with the given
key, or create the key when absent. -/
def setQueue (l : Ledger) (k : String) (v : List sizeTimestamp) : Ledger :=
  match l with
  | [] => [(k, v)]
  | (k2, q) :: rest => if k2 = k then (k, v) :: rest else (k2, q) :: setQueue rest k v

/-- Summed load currently recorded for a backend. -/
def sumLoad (l : Ledger) (s : String) : Nat :=
  sumQueue (lookupQueue l s)

/-- Go `incrementTraffic(dst, size)` (balancer.go lines 62-76): append a
sample with the current timestamp to the backend's queue. -/
def incrementTraffic (l : Ledger) (dst : String) (size : Nat) (now : Int) : Ledger :=
  setQueue l dst (lookupQueue l dst ++ [⟨size, now⟩])

/-- One queue's prune step inside `reduceTraffic` (balancer.go lines
84-91): keep exactly the samples with `st.timestamp.After(now - 5s)`,
i.e. timestamp strictly greater than `now - 5`. -/
def pruneQueue (now : Int) (q : List sizeTimestamp) : List sizeTimestamp :=
  q.filter fun st => now - 5 < st.timestamp

/-- One tick of the decay sweeper `reduceTraffic` (balancer.go lines
80-94): prune every backend's queue. -/
def reduceTick (now : Int) (l : Ledger) : Ledger :=
  l.map fun e => (e.1, pruneQueue now e.2)

/-- A backend HTTP response as seen by `forward` after `Do` succeeds:
status code, headers (flattened to (key, value) pairs in `Add` order) and
the outcome of `io.ReadAll` on the body (bytes, or a read error). -/
structure Response where
  statusCode : Nat
  headers : List (String × String)
  body : Except String (List Nat)

/-- Go `rw.Header().Set(k, v)` on headers already holding `h`: drop every
value previously associated with the key, then add the single value. -/
def setHeader (k v : String) (h : List (String × String)) : List (String × String) :=
  (h.filter fun p => p.1 != k) ++ [(k, v)]

/-- Everything `forward` does that is observable: the ledger afterwards,
the status code and headers written to the caller, the body written (if
any), and the error value returned. -/
structure ForwardResult where
  ledger : Ledger
  status : Nat
  headers : List (String × String)
  body : Option (List Nat)
  err : Option String
  deriving DecidableEq

/-- Go `forward(dst, rw, r)` (balancer.go lines 97-140), with the outbound
call's outcome passed in as data:
on transport error write 503 and return the error; on body-read error
write 500 and return the error; otherwise record the body length, copy
all response headers, set `lb-from` when tracing is enabled, write the
original status and the buffered body, and return nil. -/
def forward (trace : Bool) (now : Int) (dst : String) (l : Ledger)
    (doResult : Except String Response) : ForwardResult :=
  match doResult with
  | .error e => ⟨l, 503, [], none, some e⟩
  | .ok resp =>
    match resp.body with
    | .error e => ⟨l, 500, [], none, some e⟩
    | .ok bodyBytes =>
      let l2 := incrementTraffic l dst bodyBytes.length now
      let hdrs := if trace then setHeader "lb-from" dst resp.headers else resp.headers
      ⟨l2, resp.statusCode, hdrs, some bodyBytes, none⟩

/-- Outcome of one dispatch: what was written plus which backend (if any)
the request was forwarded to. -/
structure DispatchResult where
  result : ForwardResult
  chosen : Option String
  deriving DecidableEq

/-- The dispatcher handler (balancer.go lines 171-195): run the selection
loop; if `minTrafficServer` is still the empty string, answer 503
("No servers available") without forwarding; otherwise forward to the
selected backend. -/
def dispatch (trace : Bool) (now : Int) (l : Ledger)
    (doResult : String → Except String Response) : DispatchResult :=
  let sel := selectServer l
  if sel.1 = "" then ⟨⟨l, 503, [], none, none⟩, none⟩
  else ⟨forward trace now sel.1 l (doResult sel.1), some sel.1⟩

/-- Go `health(dst)` (balancer.go lines 48-60), with the probe outcome
passed in as data (`Except.error` for any transport error or timeout,
`Except.ok code` for a completed call): returns false on error, false when
the status is not exactly `http.StatusOK` (200), true otherwise. -/
def health (probe : Except String Nat) : Bool :=
  match probe with
  | .error _ => false
  | .ok statusCode => if statusCode != 200 then false else true

/-- Default of the `timeout-sec` flag (balancer.go line 24). -/
def timeoutSecDefault : Nat := 3

/-- Value held by the flag variable `*timeoutSec` when the package-level
`var` block is initialized.  Go evaluates `timeout =
time.Duration(*timeoutSec) * time.Second` (line 31) during package
initialization, before `main` calls `flag.Parse()`, so at that moment the
flag still holds its default regardless of the command line. -/
def timeoutSecAtInit (_parsedTimeoutSec : Nat) : Nat :=
  timeoutSecDefault

/-- Nanoseconds in `time.Second`. -/
def second : Nat := 1000000000

/-- The package-level `timeout` duration (nanoseconds) as a function of
the `-timeout-sec` value given on the command line. -/
def timeoutDuration (parsedTimeoutSec : Nat) : Nat :=
  timeoutSecAtInit parsedTimeoutSec * second

/-- Timeout used by `health` (balancer.go line 49). -/
def healthTimeout (parsedTimeoutSec : Nat) : Nat :=
  timeoutDuration parsedTimeoutSec

/-- Timeout used by `forward` (balancer.go line 98). -/
def forwardTimeout (parsedTimeoutSec : Nat) : Nat :=
  timeoutDuration parsedTimeoutSec

/-! ## Selection lemmas -/

/-- Unfolding `firstMin` on a cons cell. -/
theorem firstMin_cons (s : String) (q : List sizeTimestamp) (rest : Ledger) :
    firstMin ((s, q) :: rest) =
      match firstMin rest with
      | none => some (s, sumQueue q)
      | some (s2, m2) =>
        if sumQueue q ≤ m2 then some (s, sumQueue q) else some (s2, m2) := rfl

/-- `firstMin` only returns `none` on the empty ledger. -/
theorem firstMin_eq_none {l : Ledger} (h : firstMin l = none) : l = [] := by
  cases l with
  | nil => rfl
  | cons e rest =>
    obtain ⟨s, q⟩ := e
    rw [firstMin_cons] at h
    rcases hr : firstMin rest with _ | ⟨s2, m2⟩ <;> rw [hr] at h
    · simp at h
    · dsimp only at h
      split at h <;> simp at h

/-- The selection fold computed in terms of `firstMin`: when the ledger's
first minimal load is `m` at backend `b`, the fold returns `(b, m)` as
soon as `m` is strictly below the accumulated minimum, and keeps the
accumulator otherwise. -/
theorem selectAux_some : ∀ (l : Ledger) (b : String) (m : Nat),
    firstMin l = some (b, m) → ∀ (best : String) (minT : Nat),
      selectAux best minT l = if m < minT then (b, m) else (best, minT) := by
  intro l
  induction l with
  | nil => intro b m h; simp [firstMin] at h
  | cons e rest ih =>
    obtain ⟨s, q⟩ := e
    intro b m h best minT
    rw [firstMin_cons] at h
    rw [show selectAux best minT ((s, q) :: rest) =
        (if sumQueue q < minT then selectAux s (sumQueue q) rest
         else selectAux best minT rest) from rfl]
    rcases hr : firstMin rest with _ | ⟨s2, m2⟩ <;> rw [hr] at h <;> dsimp only at h
    · have hrest : rest = [] := firstMin_eq_none hr
      subst hrest
      simp only [Option.some.injEq, Prod.mk.injEq] at h
      obtain ⟨rfl, rfl⟩ := h
      by_cases hlt : sumQueue q < minT
      · rw [if_pos hlt, if_pos hlt]; rfl
      · rw [if_neg hlt, if_neg hlt]; rfl
    · rw [ih _ _ hr, ih _ _ hr]
      split at h <;> simp only [Option.some.injEq, Prod.mk.injEq] at h <;>
        obtain ⟨rfl, rfl⟩ := h
      · rename_i hle
        by_cases hlt : sumQueue q < minT
        · rw [if_pos hlt, if_neg (by omega), if_pos hlt]
        · rw [if_neg hlt, if_neg (by omega), if_neg hlt]
      · rename_i hle
        by_cases hlt : sumQueue q < minT
        · rw [if_pos hlt, if_pos (by omega), if_pos (by omega)]
        · rw [if_neg hlt]

/-- The backend named by `firstMin` is an entry of the ledger and its
summed load is the reported minimum. -/
theorem firstMin_mem : ∀ (l : Ledger) (b : String) (m : Nat),
    firstMin l = some (b, m) → ∃ q, (b, q) ∈ l ∧ sumQueue q = m := by
  intro l
  induction l with
  | nil => intro b m h; simp [firstMin] at h
  | cons e rest ih =>
    obtain ⟨s, q⟩ := e
    intro b m h
    rw [firstMin_cons] at h
    rcases hr : firstMin rest with _ | ⟨s2, m2⟩ <;> rw [hr] at h <;> dsimp only at h
    · simp only [Option.some.injEq, Prod.mk.injEq] at h
      obtain ⟨rfl, rfl⟩ := h
      exact ⟨q, List.mem_cons_self _ _, rfl⟩
    · split at h
      · simp only [Option.some.injEq, Prod.mk.injEq] at h
        obtain ⟨rfl, rfl⟩ := h
        exact ⟨q, List.mem_cons_self _ _, rfl⟩
      · simp only [Option.some.injEq, Prod.mk.injEq] at h
        obtain ⟨rfl, rfl⟩ := h
        obtain ⟨q2, hq2, hsum⟩ := ih _ _ hr
        exact ⟨q2, List.mem_cons_of_mem _ hq2, hsum⟩

/-- The minimum reported by `firstMin` is less than or equal to every
entry's summed load. -/
theorem firstMin_le : ∀ (l : Ledger) (b : String) (m : Nat),
    firstMin l = some (b, m) → ∀ e ∈ l, m ≤ sumQueue e.2 := by
  intro l
  induction l with
  | nil => intro b m h; simp [firstMin] at h
  | cons e rest ih =>
    obtain ⟨s, q⟩ := e
    intro b m h
    rw [firstMin_cons] at h
    rcases hr : firstMin rest with _ | ⟨s2, m2⟩ <;> rw [hr] at h <;> dsimp only at h
    · have hrest : rest = [] := firstMin_eq_none hr
      subst hrest
      simp only [Option.some.injEq, Prod.mk.injEq] at h
      obtain ⟨rfl, rfl⟩ := h
      simp
    · split at h
      · rename_i hle
        simp only [Option.some.injEq, Prod.mk.injEq] at h
        obtain ⟨rfl, rfl⟩ := h
        intro e he
        rcases List.mem_cons.mp he with rfl | hmem
        · exact Nat.le_refl _
        · have := ih _ _ hr e hmem
          omega
      · rename_i hle
        simp only [Option.some.injEq, Prod.mk.injEq] at h
        obtain ⟨rfl, rfl⟩ := h
        intro e he
        rcases List.mem_cons.mp he with rfl | hmem
        · dsimp only
          omega
        · exact ih _ _ hr e hmem

/-- On a nonempty ledger `firstMin` returns a value. -/
theorem firstMin_isSome {l : Ledger} (h : l ≠ []) :
    ∃ bm, firstMin l = some bm := by
  rcases hfm : firstMin l with _ | bm
  · exact absurd (firstMin_eq_none hfm) h
  · exact ⟨bm, rfl⟩

/-- C1: for every ledger snapshot whose entry sums are below the Go
`maxInt` sentinel, the dispatcher's selection loop returns exactly the
first entry (in traversal order) of minimal summed load: the chosen
backend is a pooled entry, its summed load equals the reported minimum,
that minimum is less than or equal to every other entry's summed load,
and on a tie the entry encountered first wins (that is what `firstMin`
picks). -/
theorem select_least_load (l : Ledger) (b : String) (m : Nat)
    (hall : ∀ e ∈ l, sumQueue e.2 < maxInt)
    (hfm : firstMin l = some (b, m)) :
    selectServer l = (b, m) ∧ (∃ q, (b, q) ∈ l ∧ sumQueue q = m) ∧
      ∀ e ∈ l, m ≤ sumQueue e.2 := by
  obtain ⟨q, hq, hsum⟩ := firstMin_mem l b m hfm
  have hm : m < maxInt := hsum ▸ hall (b, q) hq
  refine ⟨?_, ⟨q, hq, hsum⟩, firstMin_le l b m hfm⟩
  rw [selectServer, selectAux_some l b m hfm]
  exact if_pos hm

/-- Witness for C1 on a concrete snapshot with a tie: server1 and server2
both carry load 7 (server3 carries 9), and the first-encountered server1
is selected. -/
theorem select_least_load_witness :
    selectServer [("server1:8080", [⟨7, 0⟩]), ("server2:8080", [⟨7, 1⟩]),
        ("server3:8080", [⟨9, 0⟩])] = ("server1:8080", 7) ∧
      (∃ q, ("server1:8080", q) ∈
          [("server1:8080", [⟨7, 0⟩]), ("server2:8080", [⟨7, 1⟩]),
            ("server3:8080", [⟨9, 0⟩])] ∧ sumQueue q = 7) ∧
      ∀ e ∈ [("server1:8080", [sizeTimestamp.mk 7 0]),
          ("server2:8080", [⟨7, 1⟩]), ("server3:8080", [⟨9, 0⟩])],
        7 ≤ sumQueue e.2 :=
  select_least_load _ _ _ (by decide) (by decide)

/-! ## Decay sweeper -/

/-- C2: one tick of the decay sweeper removes, for every backend, exactly
the samples whose timestamp is at most `now - 5` (seconds): every queue in
the pruned ledger comes from the same backend's queue in the old ledger,
is an order-preserving sublist of it, a sample of the old queue is kept
exactly when its timestamp exceeds `now - 5`, and every retained sample
has timestamp strictly greater than `now - 5`. -/
theorem reduce_tick_prunes (now : Int) (l : Ledger) (s : String)
    (q : List sizeTimestamp) (h : (s, q) ∈ l) :
    ∃ q2, (s, q2) ∈ reduceTick now l ∧ q2.Sublist q ∧
      (∀ st ∈ q, (st ∈ q2 ↔ ¬ st.timestamp ≤ now - 5)) ∧
      ∀ st ∈ q2, now - 5 < st.timestamp := by
  refine ⟨pruneQueue now q, ?_, List.filter_sublist q, ?_, ?_⟩
  · rw [reduceTick]
    exact List.mem_map_of_mem (fun e => (e.1, pruneQueue now e.2)) h
  · intro st hst
    rw [pruneQueue, List.mem_filter]
    simp [hst]
  · intro st hst
    have := List.of_mem_filter hst
    simpa using this

/-- Witness for C2: at `now = 10`, the sample stamped 2 (age 8) and the
sample stamped exactly 5 (age exactly the window) are dropped, and the
sample stamped 7 is kept. -/
theorem reduce_tick_prunes_witness :
    ∃ q2, ("server1:8080", q2) ∈ reduceTick 10 [("server1:8080",
        [sizeTimestamp.mk 3 2, sizeTimestamp.mk 9 5, sizeTimestamp.mk 4 7])] ∧
      q2.Sublist [sizeTimestamp.mk 3 2, sizeTimestamp.mk 9 5,
        sizeTimestamp.mk 4 7] ∧
      (∀ st ∈ [sizeTimestamp.mk 3 2, sizeTimestamp.mk 9 5,
          sizeTimestamp.mk 4 7],
        (st ∈ q2 ↔ ¬ st.timestamp ≤ (10 : Int) - 5)) ∧
      ∀ st ∈ q2, (10 : Int) - 5 < st.timestamp :=
  reduce_tick_prunes 10 _ "server1:8080" _ (by decide)

/-! ## Ledger update lemmas -/

/-- Reading back the key just written returns the written queue. -/
theorem lookupQueue_setQueue_self (l : Ledger) (k : String)
    (v : List sizeTimestamp) : lookupQueue (setQueue l k v) k = v := by
  induction l with
  | nil => simp [setQueue, lookupQueue]
  | cons e rest ih =>
    obtain ⟨k2, q⟩ := e
    by_cases hk : k2 = k
    · simp [setQueue, hk, lookupQueue]
    · simp [setQueue, hk, lookupQueue, ih]

/-- Writing one key leaves every other key's queue unchanged. -/
theorem lookupQueue_setQueue_ne (l : Ledger) (k s : String)
    (v : List sizeTimestamp) (hne : s ≠ k) :
    lookupQueue (setQueue l k v) s = lookupQueue l s := by
  have hks : ¬ (k = s) := fun h => hne h.symm
  induction l with
  | nil => simp [setQueue, lookupQueue, hks]
  | cons e rest ih =>
    obtain ⟨k2, q⟩ := e
    by_cases hk : k2 = k
    · subst hk
      simp [setQueue, lookupQueue, hks]
    · simp [setQueue, hk, lookupQueue, ih]

/-- Sum of a queue extended by one sample. -/
theorem sumQueue_append_sample (q : List sizeTimestamp) (size : Nat)
    (now : Int) : sumQueue (q ++ [⟨size, now⟩]) = sumQueue q + size := by
  simp [sumQueue]

/-! ## Forwarder -/

/-- C3: after a forwarded call whose response body was read successfully
and has `bytes.length = S` bytes, the chosen backend's summed load grows
by exactly `S`, and every other backend's sample queue is unchanged. -/
theorem forward_success_records (trace : Bool) (now : Int) (dst : String)
    (l : Ledger) (code : Nat) (hdrs : List (String × String))
    (bytes : List Nat) :
    sumLoad (forward trace now dst l
        (Except.ok ⟨code, hdrs, Except.ok bytes⟩)).ledger dst =
      sumLoad l dst + bytes.length ∧
    ∀ s, s ≠ dst →
      lookupQueue (forward trace now dst l
          (Except.ok ⟨code, hdrs, Except.ok bytes⟩)).ledger s =
        lookupQueue l s := by
  constructor
  · show sumLoad (incrementTraffic l dst bytes.length now) dst = _
    rw [sumLoad, sumLoad, incrementTraffic, lookupQueue_setQueue_self,
      sumQueue_append_sample]
  · intro s hs
    show lookupQueue (incrementTraffic l dst bytes.length now) s = _
    rw [incrementTraffic, lookupQueue_setQueue_ne _ _ _ _ hs]

/-- Witness for C3: forwarding to server1 a response whose body has 4
bytes raises server1's load from 3 to 7 and leaves server2's queue
untouched. -/
theorem forward_success_records_witness :
    sumLoad (forward true 20 "server1:8080"
        [("server1:8080", [⟨3, 18⟩]), ("server2:8080", [⟨6, 19⟩])]
        (Except.ok ⟨200, [], Except.ok [10, 11, 12, 13]⟩)).ledger
        "server1:8080" =
      sumLoad [("server1:8080", [⟨3, 18⟩]), ("server2:8080", [⟨6, 19⟩])]
        "server1:8080" + 4 ∧
    lookupQueue (forward true 20 "server1:8080"
        [("server1:8080", [⟨3, 18⟩]), ("server2:8080", [⟨6, 19⟩])]
        (Except.ok ⟨200, [], Except.ok [10, 11, 12, 13]⟩)).ledger
        "server2:8080" =
      lookupQueue [("server1:8080", [⟨3, 18⟩]), ("server2:8080", [⟨6, 19⟩])]
        "server2:8080" :=
  ⟨(forward_success_records true 20 "server1:8080" _ 200 [] [10, 11, 12, 13]).1,
    (forward_success_records true 20 "server1:8080" _ 200 [] [10, 11, 12, 13]).2
      "server2:8080" (by decide)⟩

/-- C4: when the outbound call fails at the transport layer, `forward`
writes status 503 to the caller, leaves the ledger untouched (so no
backend's summed load changes), writes no headers and no body, and
returns the error to its caller. -/
theorem forward_transport_failure (trace : Bool) (now : Int) (dst : String)
    (l : Ledger) (e : String) :
    forward trace now dst l (Except.error e) = ⟨l, 503, [], none, some e⟩ ∧
      ∀ s, sumLoad (forward trace now dst l (Except.error e)).ledger s =
        sumLoad l s :=
  ⟨rfl, fun _ => rfl⟩

/-- C7: when the outbound call succeeds but reading the response body
fails, `forward` writes status 500 to the caller, writes no body bytes,
leaves the ledger untouched (no traffic sample is recorded for any
backend), and returns the error. -/
theorem forward_body_read_failure (trace : Bool) (now : Int) (dst : String)
    (l : Ledger) (code : Nat) (hdrs : List (String × String)) (e : String) :
    forward trace now dst l (Except.ok ⟨code, hdrs, Except.error e⟩) =
        ⟨l, 500, [], none, some e⟩ ∧
      ∀ s, sumLoad (forward trace now dst l
          (Except.ok ⟨code, hdrs, Except.error e⟩)).ledger s = sumLoad l s :=
  ⟨rfl, fun _ => rfl⟩

/-- C5: on transport success with a readable body, and with the backend
not itself emitting the tracing header, the caller receives the backend's
original status code, the headers written are exactly the backend's
headers followed by the tracing header when tracing is enabled, the full
buffered body is written, and the tracing header `lb-from` (naming the
serving backend) is present if and only if tracing is enabled. -/
theorem forward_success_response (trace : Bool) (now : Int) (dst : String)
    (l : Ledger) (code : Nat) (hdrs : List (String × String))
    (bytes : List Nat)
    (hlb : "lb-from" ∉ hdrs.map Prod.fst) :
    (forward trace now dst l (Except.ok ⟨code, hdrs, Except.ok bytes⟩)).status
        = code ∧
    (forward trace now dst l (Except.ok ⟨code, hdrs, Except.ok bytes⟩)).body
        = some bytes ∧
    (forward trace now dst l (Except.ok ⟨code, hdrs, Except.ok bytes⟩)).headers
        = hdrs ++ (if trace then [("lb-from", dst)] else []) ∧
    ((("lb-from", dst) ∈ (forward trace now dst l
        (Except.ok ⟨code, hdrs, Except.ok bytes⟩)).headers) ↔ trace = true) := by
  have hfilter : (hdrs.filter fun p => p.1 != "lb-from") = hdrs := by
    rw [List.filter_eq_self]
    intro p hp
    simp only [bne_iff_ne, ne_eq, decide_eq_true_eq]
    intro hcontra
    exact hlb (hcontra ▸ List.mem_map_of_mem Prod.fst hp)
  have hhdrs : (forward trace now dst l
      (Except.ok ⟨code, hdrs, Except.ok bytes⟩)).headers
        = hdrs ++ (if trace then [("lb-from", dst)] else []) := by
    show (if trace then setHeader "lb-from" dst hdrs else hdrs) = _
    cases trace
    · simp
    · simp [setHeader, hfilter]
  refine ⟨rfl, rfl, hhdrs, ?_⟩
  rw [hhdrs]
  constructor
  · intro hmem
    cases trace
    · exfalso
      simp only [if_neg Bool.false_ne_true, List.append_nil] at hmem
      exact hlb (List.mem_map_of_mem Prod.fst hmem)
    · rfl
  · intro htr
    subst htr
    simp

/-- Witness for C5: with tracing on and a backend response carrying one
ordinary header, the status, body and headers come through and `lb-from`
is stamped. -/
theorem forward_success_response_witness :
    (forward true 20 "server1:8080" []
        (Except.ok ⟨201, [("content-type", "text/plain")],
          Except.ok [1, 2]⟩)).status = 201 ∧
    (forward true 20 "server1:8080" []
        (Except.ok ⟨201, [("content-type", "text/plain")],
          Except.ok [1, 2]⟩)).body = some [1, 2] ∧
    (forward true 20 "server1:8080" []
        (Except.ok ⟨201, [("content-type", "text/plain")],
          Except.ok [1, 2]⟩)).headers
      = [("content-type", "text/plain")] ++
          (if true then [("lb-from", "server1:8080")] else []) ∧
    ((("lb-from", "server1:8080") ∈ (forward true 20 "server1:8080" []
        (Except.ok ⟨201, [("content-type", "text/plain")],
          Except.ok [1, 2]⟩)).headers) ↔ true = true) :=
  forward_success_response true 20 "server1:8080" [] 201
    [("content-type", "text/plain")] [1, 2] (by decide)

/-! ## Dispatcher -/

/-- C8: with an empty ledger (zero configured backends), a dispatch
returns status 503 without forwarding to any backend, leaves the ledger
empty, and — being a total function — cannot panic. -/
theorem dispatch_empty_pool (trace : Bool) (now : Int)
    (doResult : String → Except String Response) :
    dispatch trace now [] doResult = ⟨⟨[], 503, [], none, none⟩, none⟩ := rfl

/-- C10: whenever the ledger has at least one entry whose summed load is
below the Go `maxInt` sentinel and no backend identifier is the empty
string, the selection loop yields a backend and the dispatcher forwards
to it; the "No servers available" 503 branch is therefore not taken. -/
theorem dispatch_nonempty_forwards (trace : Bool) (now : Int) (l : Ledger)
    (doResult : String → Except String Response)
    (hkeys : ∀ e ∈ l, e.1 ≠ "")
    (hlow : ∃ e ∈ l, sumQueue e.2 < maxInt) :
    ∃ b, b ≠ "" ∧ (dispatch trace now l doResult).chosen = some b := by
  obtain ⟨e0, he0, hlt⟩ := hlow
  have hne : l ≠ [] := by
    intro hnil
    rw [hnil] at he0
    exact List.not_mem_nil e0 he0
  obtain ⟨⟨b, m⟩, hfm⟩ := firstMin_isSome hne
  have hmle : m ≤ sumQueue e0.2 := firstMin_le l b m hfm e0 he0
  have hsel : selectServer l = (b, m) := by
    rw [selectServer, selectAux_some l b m hfm]
    exact if_pos (by omega)
  obtain ⟨q, hq, _⟩ := firstMin_mem l b m hfm
  have hb : b ≠ "" := hkeys (b, q) hq
  refine ⟨b, hb, ?_⟩
  rw [dispatch, hsel]
  simp [hb]

/-- Witness for C10: a two-backend snapshot forwards to server2, the
least-loaded backend. -/
theorem dispatch_nonempty_forwards_witness :
    ∃ b, b ≠ "" ∧ (dispatch false 20
        [("server1:8080", [⟨5, 18⟩]), ("server2:8080", [⟨2, 19⟩])]
        (fun _ => Except.error "unreachable")).chosen = some b :=
  dispatch_nonempty_forwards false 20
    [("server1:8080", [⟨5, 18⟩]), ("server2:8080", [⟨2, 19⟩])]
    (fun _ => Except.error "unreachable")
    (by decide)
    ⟨("server2:8080", [⟨2, 19⟩]), by decide, by decide⟩

/-! ## Health probe -/

/-- Counterexample to C6 as stated: a probe completing with status 204
(a success-class code, 200 ≤ 204 < 300) makes `health` return false,
because the code tests for exactly `http.StatusOK`. -/
theorem health_success_class_counterexample :
    health (Except.ok 204) = false ∧ 200 ≤ 204 ∧ 204 < 300 := by
  constructor
  · rfl
  · exact ⟨by omega, by omega⟩

/-- C6 (amended): the health probe returns true exactly when the GET
completes without transport error and returns status exactly 200
(`http.StatusOK`); any transport error, timeout, or non-200 status —
including probing a non-existent or unroutable address, which surfaces
as a transport error — yields false, and `health` is a total function,
so it never throws. -/
theorem health_true_iff (probe : Except String Nat) :
    health probe = true ↔ probe = Except.ok 200 := by
  cases probe with
  | error e => simp [health]
  | ok code =>
    by_cases hc : code = 200
    · subst hc
      simp [health]
    · simp [health, hc]

/-- Witness for C6 (amended): a transport error yields false and a 200
status yields true, via the amended theorem. -/
theorem health_true_iff_witness :
    health (Except.error "connection refused") ≠ true ∧
      health (Except.ok 200) = true :=
  ⟨fun h => by simpa using (health_true_iff (Except.error "connection refused")).mp h,
    (health_true_iff (Except.ok 200)).mpr rfl⟩

/-! ## Timeout configuration -/

/-- C9: the same `timeout` value governs both the health probe and the
forwarded call, but because the package-level variable is initialized
before `flag.Parse` runs, the duration is the 3-second default even when
the command line says `-timeout-sec=10` — the configured value never
takes effect (the flag's own help text says it sets the request
timeout, so this is a bug in the code, not in the claim). -/
theorem timeout_flag_ignored :
    healthTimeout 10 = forwardTimeout 10 ∧
      forwardTimeout 10 = 3 * second ∧
      forwardTimeout 10 ≠ 10 * second := by
  refine ⟨rfl, rfl, ?_⟩
  intro h
  simp [forwardTimeout, timeoutDuration, timeoutSecAtInit, timeoutSecDefault,
    second] at h

end Balancer
